import Mathlib

/-!
Verification of the aisle/discrepancy query layer of `src/cwms/aisles.go`
(corvus_backend). The Go source is embedded shallowly: pure string
construction becomes Lean string functions, the database executor becomes an
explicit function argument from the statement text to either an error or a
list of rows, and the row-iteration loops become structural recursion that
mirrors the Go control flow (including Go's named-return accumulation).
Machine integers of the record types are modelled as `Int`; `time.Time`
instants are modelled as `Int` epoch values, which the claims never inspect.
-/

/-- Embedding of the Go type `NullString` (a wrapped `sql.NullString`): a
scalar string plus a validity flag. The Go field `String` is written
`string` here because Lean reserves the capitalised name for the type. -/
structure NullString where
  string : String
  Valid : Bool
deriving DecidableEq, Repr

/-- Embedding of the Go struct `Wms` (one row of the `v_inventory` view):
same fields in the same order; `time.Time` is abstracted to an `Int`
instant. -/
structure Wms where
  Id : Int
  StartTime : Int
  StopTime : Int
  SKU : NullString
  Discrepancy : NullString
  Aisle : String
  Block : String
  Slot : String
  Shelf : String
  DisplayName : String
  Image : NullString
deriving DecidableEq, Repr

/-- Embedding of the Go struct `AisleFilter`: the aisle and discrepancy
filter values, empty string meaning unconstrained. -/
structure AisleFilter where
  Aisle : String
  Discrepancy : String
deriving DecidableEq, Repr

/-- Embedding of the Go struct `aisleStats` (one row of `v_aisleStats`),
with its json field names given in the source as tags: id, numberOccupied,
numberEmpty, numberException, numberUnscanned, lastScanned. -/
structure aisleStats where
  Id : String
  NumberOccupied : Int
  NumberEmpty : Int
  NumberException : Int
  NumberUnscanned : Int
  LastScanned : String
deriving DecidableEq, Repr

/-- A scalar database value as delivered by the executor: the stats view
yields strings and integers. -/
inductive DbValue where
  | s (v : String)
  | i (v : Int)
deriving DecidableEq, Repr

/- ## The JSON model for NullString (Go `encoding/json` restricted to a
string target, as the two methods in the source use it). -/

/-- Models `encoding/json` string encoding of one character: quote and
backslash are escaped, other characters pass through (control-character and
HTML escapes are irrelevant to the claims). -/
def jsonEscapeChar (c : Char) : List Char :=
  if c = '\x22' then ['\x5c', '\x22']
  else if c = '\x5c' then ['\x5c', '\x5c']
  else [c]

/-- Models `json.Marshal` applied to a Go string: the escaped text between
double quotes. -/
def jsonMarshalString (s : String) : String :=
  ⟨'\x22' :: s.data.foldr (fun c acc => jsonEscapeChar c ++ acc) ['\x22']⟩

/-- Decoding of one escape character of a JSON string literal. -/
def escDecode (c : Char) : Option Char :=
  if c = '\x22' then some '\x22'
  else if c = '\x5c' then some '\x5c'
  else if c = '/' then some '/'
  else if c = 'n' then some '\n'
  else if c = 't' then some '\t'
  else if c = 'r' then some '\r'
  else none

/-- Parses the body of a JSON string literal after the opening quote: the
decoded characters up to a closing quote that ends the input, or `none` on
malformed input (unterminated literal, bad escape, trailing bytes). -/
def parseJsonStringBody : List Char → Option (List Char)
  | [] => none
  | '\x5c' :: [] => none
  | '\x5c' :: c :: rest =>
    match escDecode c, parseJsonStringBody rest with
    | some d, some content => some (d :: content)
    | _, _ => none
  | '\x22' :: rest => if rest.isEmpty then some [] else none
  | c :: rest => (parseJsonStringBody rest).map (fun l => c :: l)

/-- Models `json.Unmarshal(b, target)` for a string-typed `target` holding
`old`: the JSON token `null` is a no-op with no error, a JSON string literal
replaces the value, anything else leaves the value unchanged and reports a
decode error. Returns the new value and the error. -/
def jsonUnmarshalGoString (old : String) (b : String) : String × Option String :=
  if b = "null" then (old, none)
  else
    match b.data with
    | '\x22' :: rest =>
      match parseJsonStringBody rest with
      | some content => (⟨content⟩, none)
      | none => (old, some "unexpected end of JSON input")
    | _ => (old, some "json: cannot unmarshal value into Go value of type string")

/-- Embedding of `NullString.MarshalJSON` (aisles.go lines 36-41): the JSON
empty string when the field is not valid, otherwise the JSON encoding of the
value. -/
def NullString.MarshalJSON (ns : NullString) : String :=
  if !ns.Valid then "\x22\x22" else jsonMarshalString ns.string

/-- Embedding of `NullString.UnmarshalJSON` (aisles.go lines 44-48): decode
into the value, set `Valid` to whether decoding succeeded, return the error. -/
def NullString.UnmarshalJSON (ns : NullString) (b : String) : NullString × Option String :=
  let r := jsonUnmarshalGoString ns.string b
  ({ string := r.1, Valid := r.2.isNone }, r.2)

/- ## SQL statement construction (AisleFilter.toSqlStmt, aisles.go 115-134). -/

/-- The fixed projection over the fixed view, exactly the string literal of
aisles.go line 118. -/
def inventorySelect : String :=
  "select inventoryId, startTime, stopTime, sku, aisle, block, slot, shelf, displayName, discrepancy, imageUrl from v_inventory "

/-- The fixed ordering clause of aisles.go line 127. -/
def inventoryOrder : String := "order by aisle, block, slot"

/-- The aisle equality predicate emitted by `fmt.Sprintf` on aisles.go line
120. -/
def aisleEqClause (x : String) : String := "aisle =\x27" ++ x ++ "\x27"

/-- The discrepancy-not-equal-to-empty-string predicate of aisles.go line
123 (its literal text, stray trailing space included). -/
def discNeEmptyClause : String := "discrepancy !=\x22\x22 "

/-- The discrepancy equality predicate emitted by `fmt.Sprintf` on aisles.go
line 125. -/
def discEqClause (v : String) : String := "discrepancy =\x27" ++ v ++ "\x27"

/-- The predicate the aisle filter contributes to the `where` list
(aisles.go lines 119-121). -/
def AisleFilter.aisleClauses (af : AisleFilter) : List String :=
  if af.Aisle ≠ "" then [aisleEqClause af.Aisle] else []

/-- The predicate the discrepancy filter contributes to the `where` list
(aisles.go lines 122-126). -/
def AisleFilter.discClauses (af : AisleFilter) : List String :=
  if af.Discrepancy = "all" then [discNeEmptyClause]
  else if af.Discrepancy ≠ "" then [discEqClause af.Discrepancy]
  else []

/-- The `where` list as built by aisles.go lines 117-126: the aisle
predicate appended first, the discrepancy predicate second. -/
def AisleFilter.whereClauses (af : AisleFilter) : List String :=
  af.aisleClauses ++ af.discClauses

/-- Embedding of Go `strings.Join`. -/
def goJoin (sep : String) : List String → String
  | [] => ""
  | [x] => x
  | x :: y :: ys => x ++ sep ++ goJoin sep (y :: ys)

/-- Embedding of `AisleFilter.toSqlStmt` (aisles.go 115-134): the fixed
projection, a `where` clause joined with `and` when any predicate is
present, and the fixed ordering clause. -/
def AisleFilter.toSqlStmt (af : AisleFilter) : String :=
  if af.whereClauses.length > 0 then
    inventorySelect ++ " where " ++ goJoin " and " af.whereClauses ++ " " ++ inventoryOrder
  else
    inventorySelect ++ " " ++ inventoryOrder

/- ## Query operations. The executor (Go package variable `db`) is passed
explicitly: it maps a statement to either a query error or the row list;
each inventory row either scans into a `Wms` or fails with a scan error,
mirroring `rows.Scan` on the fixed pointer list of aisles.go line 76. -/

/-- The row loop of `FetchInventory` (aisles.go lines 74-81): Go appends
each scanned record to the named return value `wl` and returns it together
with the error as soon as a scan fails. -/
def scanLoop : List (Except String Wms) → List Wms → List Wms × Option String
  | [], wl => (wl, none)
  | Except.error e :: _, wl => (wl, some e)
  | Except.ok r :: rest, wl => scanLoop rest (wl ++ [r])

/-- Embedding of `FetchInventory` (aisles.go 63-83): run the compiled
statement, return the query error on failure, otherwise run the scan loop. -/
def FetchInventory (af : AisleFilter)
    (dbq : String → Except String (List (Except String Wms))) :
    List Wms × Option String :=
  match dbq af.toSqlStmt with
  | Except.error e => ([], some e)
  | Except.ok rows => scanLoop rows []

/-- The fixed statement of `fetchAisles` (aisles.go line 89). -/
def aislesQuery : String := "select distinct aisle from v_inventory order by aisle"

/-- The row loop of `fetchAisles` (aisles.go lines 96-103). -/
def aislesScanLoop : List (Except String String) → List String → List String × Option String
  | [], al => (al, none)
  | Except.error e :: _, al => (al, some e)
  | Except.ok a :: rest, al => aislesScanLoop rest (al ++ [a])

/-- Embedding of `fetchAisles` (aisles.go 86-105): the `filter` parameter is
accepted, as in the source, and the fixed distinct-aisle statement is
issued regardless of it. -/
def fetchAisles (filter : String)
    (dbq : String → Except String (List (Except String String))) :
    List String × Option String :=
  match dbq aislesQuery with
  | Except.error e => ([], some e)
  | Except.ok rows => aislesScanLoop rows []

/-- The fixed statement of `fetchAisleStats` (aisles.go line 213). -/
def statsQuery : String :=
  "select distinct aisle, numberException, numberEmpty, numberOccupied, numberUnscanned, lastScanned from v_aisleStats"

/-- Modelled from the spec: `StructForScan`, the reflection helper that
`fetchAisleStats` passes to `rows.Scan` (aisles.go line 222), is not under
src/. Section 4.3 of the spec states that the aisle-stats row maps "by a
stable name-to-field correspondence rather than positional order" and
"fails with MappingError on any missing required field", so a stats row is
taken as named columns and each struct field is bound by its `db` tag
name. -/
def scanAisleStats (row : List (String × DbValue)) : Except String aisleStats :=
  match row.lookup "aisle", row.lookup "numberOccupied", row.lookup "numberEmpty",
      row.lookup "numberException", row.lookup "numberUnscanned", row.lookup "lastScanned" with
  | some (DbValue.s aisle), some (DbValue.i occ), some (DbValue.i emp),
      some (DbValue.i exc), some (DbValue.i unsc), some (DbValue.s last) =>
    Except.ok { Id := aisle, NumberOccupied := occ, NumberEmpty := emp,
                NumberException := exc, NumberUnscanned := unsc, LastScanned := last }
  | _, _, _, _, _, _ => Except.error "MappingError"

/-- The row loop of `fetchAisleStats` (aisles.go lines 220-228), with the
same named-return accumulation as the inventory loop. -/
def statsScanLoop : List (List (String × DbValue)) → List aisleStats → List aisleStats × Option String
  | [], asl => (asl, none)
  | row :: rest, asl =>
    match scanAisleStats row with
    | Except.error e => (asl, some e)
    | Except.ok a => statsScanLoop rest (asl ++ [a])

/-- Embedding of `fetchAisleStats` (aisles.go 210-229). -/
def fetchAisleStats
    (dbq : String → Except String (List (List (String × DbValue)))) :
    List aisleStats × Option String :=
  match dbq statsQuery with
  | Except.error e => ([], some e)
  | Except.ok rows => statsScanLoop rows []

/- ## Request routing (handleApiAisles / handleApiDiscrepancies). -/

/-- Prepends a character to the head component of a split, the step
`strings.Split` takes for a non-separator character. -/
def consHead (c : Char) : List (List Char) → List (List Char)
  | [] => [[c]]
  | h :: t => (c :: h) :: t

/-- Embedding of Go `strings.Split(s, "/")` on the character list: every
slash separates, empty components are kept, the empty input yields one
empty component. -/
def splitSlash : List Char → List (List Char)
  | [] => [[]]
  | c :: rest => if c = '/' then [] :: splitSlash rest else consHead c (splitSlash rest)

/-- The trailing path segment as both handlers read it (aisles.go lines
141-143 and 178-180): split the path on slash and take the last component
when the split is non-empty. -/
def lastSegment (path : String) : String :=
  let sl := splitSlash path.data
  if 0 < sl.length then ⟨sl.getLastD []⟩ else ""

/-- The filter `handleApiAisles` builds from the request path (aisles.go
lines 138-147): the aisle filter is the trailing segment when that segment
is non-empty. -/
def aisleFilterOf (path : String) : AisleFilter :=
  let ls := lastSegment path
  if ls ≠ "" then { Aisle := ls, Discrepancy := "" } else { Aisle := "", Discrepancy := "" }

/-- The filter `handleApiDiscrepancies` builds from the request path
(aisles.go lines 173-185): the discrepancy filter starts as "all" and is
overwritten by the trailing segment when that segment is non-empty. -/
def discrepancyFilterOf (path : String) : AisleFilter :=
  let ls := lastSegment path
  if ls ≠ "" then { Aisle := "", Discrepancy := ls } else { Aisle := "", Discrepancy := "all" }

/-- The two response shapes the aisles handler emits: the keyed aggregate
shape or the flat inventory sequence. -/
inductive ApiResponse where
  | keyed (entries : List (String × aisleStats))
  | flat (records : List Wms)
deriving DecidableEq, Repr

/-- Modelled from the spec: `jsonApi`, the response emitter the handlers
call, is not under src/. Section 4.5 of the spec states the stats result is
emitted "as a mapping keyed by aisle id", so the keyed shape pairs each
record with its `Id`. -/
def keyedByAisleId (asl : List aisleStats) : List (String × aisleStats) :=
  asl.map (fun a => (a.Id, a))

/-- Embedding of `handleApiAisles` (aisles.go 136-169): build the filter
from the path; with no aisle filter fetch the aisle stats and emit them
keyed, otherwise fetch the filtered inventory and emit it flat. Errors are
only logged in the source, so the fetched list is emitted either way. -/
def handleApiAisles (path : String)
    (statsDb : String → Except String (List (List (String × DbValue))))
    (invDb : String → Except String (List (Except String Wms))) : ApiResponse :=
  let af := aisleFilterOf path
  if af.Aisle = "" then ApiResponse.keyed (keyedByAisleId (fetchAisleStats statsDb).1)
  else ApiResponse.flat (FetchInventory af invDb).1

/-- Modelled from the spec: the route registration is not under src/. The
spec's HTTP surface routes `GET /aisles` to the aggregate-stats case, which
in the handler is the empty-trailing-segment case, so the registration is
taken as a Go subtree pattern and the request reaches the handler with the
path `/aisles/`. -/
def getAislesPath : String := "/aisles/"

/-- Modelled from the spec: as for `getAislesPath`, `GET /discrepancies`
reaches its handler as the subtree path `/discrepancies/`. -/
def getDiscrepanciesPath : String := "/discrepancies/"

/-- The segment-extraction rule exactly as section 4.5 of the spec words it,
for comparison with the code's rule: split the request path on slash and
take the last non-empty component; all components empty means no filter. -/
def specLastNonEmptySegment (path : String) : String :=
  ⟨((splitSlash path.data).filter (fun c => !c.isEmpty)).getLastD []⟩

/-- The inventory records scanned before the first failing row, for stating
what `FetchInventory` actually returns alongside an error. -/
def oksBeforeError : List (Except String Wms) → List Wms
  | [] => []
  | Except.ok w :: rest => w :: oksBeforeError rest
  | Except.error _ :: _ => []

/-- The first scan error of a row list, if any. -/
def firstScanError : List (Except String Wms) → Option String
  | [] => none
  | Except.ok _ :: rest => firstScanError rest
  | Except.error e :: _ => some e

set_option maxRecDepth 8000

/-- A concrete stats row as the executor delivers it for the end-to-end
check of the aisles route: the columns of `statsQuery` by name. -/
def statsRowA1 : List (String × DbValue) :=
  [("aisle", DbValue.s "A1"), ("numberException", DbValue.i 0), ("numberEmpty", DbValue.i 2),
   ("numberOccupied", DbValue.i 5), ("numberUnscanned", DbValue.i 1),
   ("lastScanned", DbValue.s "2024-01-01T00:00:00Z")]

/-- A sample inventory record for concrete executor states. -/
def wmsA : Wms :=
  { Id := 1, StartTime := 0, StopTime := 0, SKU := { string := "sku1", Valid := true },
    Discrepancy := { string := "", Valid := false }, Aisle := "A1", Block := "B1",
    Slot := "S1", Shelf := "", DisplayName := "slot 1", Image := { string := "", Valid := false } }

/- ## Shared helper lemmas. -/

theorem str_prefix_lit_ne (p x q r : String) (h : r.data.take p.data.length ≠ p.data) :
    p ++ x ++ q ≠ r := by
  intro he
  apply h
  have h2 : (p ++ x ++ q).data = r.data := congrArg String.data he
  rw [String.data_append, String.data_append, List.append_assoc] at h2
  rw [← h2]
  exact List.take_left _ _

theorem str_prefix_take_ne (p x q p2 y q2 : String) (n : Nat)
    (hn1 : n ≤ p.data.length) (hn2 : n ≤ p2.data.length)
    (hne : p.data.take n ≠ p2.data.take n) : p ++ x ++ q ≠ p2 ++ y ++ q2 := by
  intro he
  apply hne
  have h2 := congrArg String.data he
  simp only [String.data_append, List.append_assoc] at h2
  have h3 := congrArg (List.take n) h2
  rwa [List.take_append_of_le_length hn1, List.take_append_of_le_length hn2] at h3

theorem str_affix_inj (p q x y : String) (h : p ++ x ++ q = p ++ y ++ q) : x = y := by
  have h2 := congrArg String.data h
  simp only [String.data_append, List.append_assoc] at h2
  exact String.ext (List.append_cancel_right (List.append_cancel_left h2))

theorem aisleEq_ne_discNe (y : String) : aisleEqClause y ≠ discNeEmptyClause := by
  unfold aisleEqClause
  exact str_prefix_lit_ne _ y _ _ (by decide)

theorem aisleEq_ne_discEq (y v : String) : aisleEqClause y ≠ discEqClause v := by
  unfold aisleEqClause discEqClause
  exact str_prefix_take_ne _ y _ _ v _ 5 (by decide) (by decide) (by decide)

theorem discNe_ne_discEq (v : String) : discNeEmptyClause ≠ discEqClause v := by
  intro h
  exact str_prefix_lit_ne "discrepancy =\x27" v "\x27" discNeEmptyClause (by decide) h.symm

theorem aisleEq_inj {y x : String} (h : aisleEqClause y = aisleEqClause x) : y = x := by
  unfold aisleEqClause at h
  exact str_affix_inj _ _ _ _ h

theorem discEq_inj {a b : String} (h : discEqClause a = discEqClause b) : a = b := by
  unfold discEqClause at h
  exact str_affix_inj _ _ _ _ h

theorem aisleEq_not_in_disc (af : AisleFilter) (y : String) :
    aisleEqClause y ∉ af.discClauses := by
  unfold AisleFilter.discClauses
  split
  · simpa using aisleEq_ne_discNe y
  · split
    · simpa using aisleEq_ne_discEq y af.Discrepancy
    · simp

theorem splitSlash_ne_nil (cs : List Char) : splitSlash cs ≠ [] := by
  cases cs with
  | nil => simp [splitSlash]
  | cons c rest =>
    simp only [splitSlash]
    split
    · simp
    · cases h : splitSlash rest with
      | nil => simp [consHead]
      | cons a t => simp [consHead]

theorem splitSlash_sep (cs ds : List Char) :
    splitSlash (cs ++ '/' :: ds) = splitSlash cs ++ splitSlash ds := by
  induction cs with
  | nil => simp [splitSlash]
  | cons c cs ih =>
    rw [show (c :: cs) ++ '/' :: ds = c :: (cs ++ '/' :: ds) from rfl]
    by_cases hc : c = '/'
    · subst hc
      rw [show splitSlash ('/' :: (cs ++ '/' :: ds)) = [] :: splitSlash (cs ++ '/' :: ds) from by
            simp [splitSlash],
          ih,
          show splitSlash ('/' :: cs) = [] :: splitSlash cs from by simp [splitSlash]]
      rfl
    · rw [show splitSlash (c :: (cs ++ '/' :: ds)) = consHead c (splitSlash (cs ++ '/' :: ds)) from by
            simp [splitSlash, hc],
          ih,
          show splitSlash (c :: cs) = consHead c (splitSlash cs) from by simp [splitSlash, hc]]
      cases h : splitSlash cs with
      | nil => exact absurd h (splitSlash_ne_nil cs)
      | cons a t => simp [consHead]

theorem splitSlash_no_sep (cs : List Char) (h : '/' ∉ cs) : splitSlash cs = [cs] := by
  induction cs with
  | nil => rfl
  | cons c cs ih =>
    have hc : c ≠ '/' := fun he => h (he ▸ List.mem_cons_self c cs)
    have h2 : '/' ∉ cs := fun hm => h (List.mem_cons_of_mem c hm)
    simp [splitSlash, hc, ih h2, consHead]

theorem lastSegment_eq (path : String) :
    lastSegment path = ⟨(splitSlash path.data).getLastD []⟩ := by
  unfold lastSegment
  rw [if_pos (List.length_pos.mpr (splitSlash_ne_nil path.data))]

theorem lastSegment_concat_slash (p : String) : lastSegment (p ++ "/") = "" := by
  have hd : (p ++ "/").data = p.data ++ '/' :: [] := by rw [String.data_append]
  rw [lastSegment_eq, hd, splitSlash_sep]
  rw [show splitSlash ([] : List Char) = [[]] from rfl, List.getLastD_concat]

theorem lastSegment_concat_seg (p s : String) (hsl : '/' ∉ s.data) :
    lastSegment (p ++ "/" ++ s) = s := by
  have hd : (p ++ "/" ++ s).data = p.data ++ '/' :: s.data := by
    rw [String.data_append, String.data_append, List.append_assoc]
    rfl
  rw [lastSegment_eq, hd, splitSlash_sep, splitSlash_no_sep s.data hsl, List.getLastD_concat]

theorem scanLoop_eq (rows : List (Except String Wms)) (acc : List Wms) :
    scanLoop rows acc = (acc ++ oksBeforeError rows, firstScanError rows) := by
  induction rows generalizing acc with
  | nil => simp [scanLoop, oksBeforeError, firstScanError]
  | cons r rest ih =>
    cases r with
    | error e => simp [scanLoop, oksBeforeError, firstScanError]
    | ok w => simp [scanLoop, oksBeforeError, firstScanError, ih]

/- ## Claims. -/

/-- Claim C1: mapping the aisle-stats row by field-name correspondence, a
`GET /aisles` request whose stats view returns the row aisle A1, exception
0, empty 2, occupied 5, unscanned 1, lastScanned 2024-01-01T00:00:00Z
yields the keyed response containing exactly that aisle's record, with the
occupied and exception counts in the numberOccupied and numberException
fields respectively. -/
theorem c1_get_aisles_stats_keyed :
    handleApiAisles getAislesPath (fun _ => Except.ok [statsRowA1]) (fun _ => Except.ok []) =
      ApiResponse.keyed [("A1",
        { Id := "A1", NumberOccupied := 5, NumberEmpty := 2, NumberException := 0,
          NumberUnscanned := 1, LastScanned := "2024-01-01T00:00:00Z" })] := by
  decide

/-- Claim C2 counterexample: with an executor whose second row fails to
scan, `FetchInventory` returns the scan error together with the record
scanned from the first row — the returned record list is not empty, so the
claim that no records at all are returned fails at this input. -/
theorem c2_counterexample :
    FetchInventory { Aisle := "A1", Discrepancy := "" }
        (fun _ => Except.ok [Except.ok wmsA, Except.error "sql Scan error"]) =
      ([wmsA], some "sql Scan error") ∧
    (FetchInventory { Aisle := "A1", Discrepancy := "" }
        (fun _ => Except.ok [Except.ok wmsA, Except.error "sql Scan error"])).1.isEmpty = false := by
  constructor
  · decide
  · decide

/-- Claim C2 as amended: when a row fails to scan, `FetchInventory` returns
the first scan error together with the records scanned before the failing
row (a partial list, Go's named-return accumulation), and an executor error
is returned with an empty list. -/
theorem c2_fetch_inventory_partial_results (af : AisleFilter)
    (rows : List (Except String Wms)) (e : String) :
    FetchInventory af (fun _ => Except.ok rows) = (oksBeforeError rows, firstScanError rows) ∧
    FetchInventory af (fun _ => Except.error e) = ([], some e) := by
  constructor
  · simpa [FetchInventory] using scanLoop_eq rows []
  · rfl

/-- Claim C3 counterexample: invoked on the path `/discrepancies`, whose
trailing segment equals the route's own base path, the handler sets the
discrepancy filter to `discrepancies`, not to `all`. -/
theorem c3_counterexample :
    (discrepancyFilterOf "/discrepancies").Discrepancy = "discrepancies" ∧
    ((discrepancyFilterOf "/discrepancies").Discrepancy == "all") = false := by
  constructor
  · decide
  · decide

/-- Claim C3 as amended: the discrepancy filter defaults to `all` exactly
when the trailing path segment is empty; a `GET /discrepancies` request,
which the subtree route registration delivers as `/discrepancies/`, has an
empty trailing segment and so builds the filter with discrepancy `all`. -/
theorem c3_default_all_amended (p : String) :
    discrepancyFilterOf (p ++ "/") = { Aisle := "", Discrepancy := "all" } ∧
    discrepancyFilterOf getDiscrepanciesPath = { Aisle := "", Discrepancy := "all" } := by
  constructor
  · simp [discrepancyFilterOf, lastSegment_concat_slash]
  · decide

/-- Claim C4 counterexample: on the path `/aisles/A1/` the spec's rule
(last non-empty component) extracts `A1`, but the handler reads the last
component, which is empty, and builds no filter — the two disagree at this
input. -/
theorem c4_counterexample :
    specLastNonEmptySegment "/aisles/A1/" = "A1" ∧
    aisleFilterOf "/aisles/A1/" = { Aisle := "", Discrepancy := "" } ∧
    ((aisleFilterOf "/aisles/A1/").Aisle == specLastNonEmptySegment "/aisles/A1/") = false := by
  refine ⟨by decide, by decide, by decide⟩

/-- Claim C4 as amended: the filter segment is the last component of the
slash-split path, used only when non-empty; a path ending in a slash yields
no filter (and the discrepancies default) even when earlier components are
non-empty, while a path ending in a non-empty slash-free segment uses that
segment as the filter. -/
theorem c4_last_segment_amended (p s : String) (hs : s ≠ "") (hsl : '/' ∉ s.data) :
    aisleFilterOf (p ++ "/") = { Aisle := "", Discrepancy := "" } ∧
    discrepancyFilterOf (p ++ "/") = { Aisle := "", Discrepancy := "all" } ∧
    aisleFilterOf (p ++ "/" ++ s) = { Aisle := s, Discrepancy := "" } := by
  refine ⟨?_, ?_, ?_⟩
  · simp [aisleFilterOf, lastSegment_concat_slash]
  · simp [discrepancyFilterOf, lastSegment_concat_slash]
  · simp [aisleFilterOf, lastSegment_concat_seg p s hsl, hs]

/-- Claim C4 witness: the amended statement at the concrete path pieces
`/aisles` and `A1`. -/
theorem c4_last_segment_amended_witness :
    aisleFilterOf ("/aisles" ++ "/") = { Aisle := "", Discrepancy := "" } ∧
    discrepancyFilterOf ("/aisles" ++ "/") = { Aisle := "", Discrepancy := "all" } ∧
    aisleFilterOf ("/aisles" ++ "/" ++ "A1") = { Aisle := "A1", Discrepancy := "" } :=
  c4_last_segment_amended "/aisles" "A1" (by decide) (by decide)

/-- Claim C10: `fetchAisles` ignores its filter argument — for any two
filter strings and any one executor state it issues the same fixed distinct
aisle query and returns the identical result. -/
theorem c10_fetch_aisles_filter_independent (f1 f2 : String)
    (dbq : String → Except String (List (Except String String))) :
    fetchAisles f1 dbq = fetchAisles f2 dbq := rfl

/-- Claim C5: the compiled discrepancy predicate is the
not-equal-to-empty-string clause when the mode is `all`, and the exact
equality clause on the value for any other non-empty discrepancy value. -/
theorem c5_discrepancy_predicate (af : AisleFilter) (v : String) :
    (af.Discrepancy = "all" → af.discClauses = [discNeEmptyClause]) ∧
    (af.Discrepancy = v → v ≠ "" → v ≠ "all" → af.discClauses = [discEqClause v]) := by
  constructor
  · intro h
    simp [AisleFilter.discClauses, h]
  · intro hv h1 h2
    simp [AisleFilter.discClauses, hv, h1, h2]

/-- Claim C5 witness: the two branches at the concrete filters with
discrepancy `all` and discrepancy `D1`. -/
theorem c5_discrepancy_predicate_witness :
    (AisleFilter.mk "" "all").discClauses = [discNeEmptyClause] ∧
    (AisleFilter.mk "" "D1").discClauses = [discEqClause "D1"] :=
  ⟨(c5_discrepancy_predicate (AisleFilter.mk "" "all") "D1").1 rfl,
   (c5_discrepancy_predicate (AisleFilter.mk "" "D1") "D1").2 rfl (by decide) (by decide)⟩

/-- Claim C6: for a non-empty aisle value the predicate set holds exactly
one aisle equality, bound to that value, and when a discrepancy predicate
is present as well the two are joined with `and` in the compiled
statement. -/
theorem c6_aisle_predicate_and (af : AisleFilter) (x : String)
    (hx : af.Aisle = x) (hne : x ≠ "") :
    af.whereClauses.count (aisleEqClause x) = 1 ∧
    (∀ y, aisleEqClause y ∈ af.whereClauses → y = x) ∧
    (af.Discrepancy ≠ "" → ∃ d, af.discClauses = [d] ∧
      af.toSqlStmt = inventorySelect ++ " where " ++ aisleEqClause x ++ " and " ++ d
        ++ " " ++ inventoryOrder) := by
  have ha : af.aisleClauses = [aisleEqClause x] := by
    simp [AisleFilter.aisleClauses, hx, hne]
  refine ⟨?_, ?_, ?_⟩
  · rw [AisleFilter.whereClauses, ha, List.count_append,
      List.count_eq_zero_of_not_mem (aisleEq_not_in_disc af x)]
    simp
  · intro y hy
    rw [AisleFilter.whereClauses, ha] at hy
    rcases List.mem_append.mp hy with h | h
    · exact aisleEq_inj (List.mem_singleton.mp h)
    · exact absurd h (aisleEq_not_in_disc af y)
  · intro hd
    have hex : ∃ d, af.discClauses = [d] := by
      unfold AisleFilter.discClauses
      by_cases hall : af.Discrepancy = "all"
      · rw [if_pos hall]
        exact ⟨_, rfl⟩
      · rw [if_neg hall, if_pos hd]
        exact ⟨_, rfl⟩
    obtain ⟨d, hdl⟩ := hex
    refine ⟨d, hdl, ?_⟩
    have hw : af.whereClauses = [aisleEqClause x, d] := by
      rw [AisleFilter.whereClauses, ha, hdl]
      rfl
    unfold AisleFilter.toSqlStmt
    rw [hw, if_pos (by simp)]
    rw [show goJoin " and " [aisleEqClause x, d] = aisleEqClause x ++ " and " ++ d from rfl]
    simp [String.append_assoc]

/-- Claim C6 witness: the aisle A1 filter with discrepancy mode `all`. -/
theorem c6_aisle_predicate_and_witness :
    (AisleFilter.mk "A1" "all").whereClauses.count (aisleEqClause "A1") = 1 ∧
    (AisleFilter.mk "A1" "all").toSqlStmt = inventorySelect ++ " where " ++ aisleEqClause "A1"
      ++ " and " ++ discNeEmptyClause ++ " " ++ inventoryOrder := by
  have h := c6_aisle_predicate_and (AisleFilter.mk "A1" "all") "A1" rfl (by decide)
  refine ⟨h.1, ?_⟩
  obtain ⟨d, hd, hs⟩ := h.2.2 (by decide)
  have h2 : discNeEmptyClause = d := by
    have h3 : (AisleFilter.mk "A1" "all").discClauses = [discNeEmptyClause] := by decide
    have h4 := h3.symm.trans hd
    simpa using h4
  rw [← h2] at hs
  exact hs

/-- Claim C7: every compiled statement ends with the fixed ordering clause,
and the unconstrained filter compiles to exactly the fixed projection
followed by the ordering clause, with no `where` clause. -/
theorem c7_order_clause_fixed (af : AisleFilter) :
    (∃ pre, af.toSqlStmt = pre ++ inventoryOrder) ∧
    (af.Aisle = "" → af.Discrepancy = "" →
      af.toSqlStmt = inventorySelect ++ " " ++ inventoryOrder) := by
  constructor
  · unfold AisleFilter.toSqlStmt
    split
    · exact ⟨_, rfl⟩
    · exact ⟨_, rfl⟩
  · intro h1 h2
    have hw : af.whereClauses = [] := by
      simp [AisleFilter.whereClauses, AisleFilter.aisleClauses, AisleFilter.discClauses, h1, h2]
    unfold AisleFilter.toSqlStmt
    rw [hw]
    simp

/-- Claim C7 witness: the unconstrained filter. -/
theorem c7_order_clause_fixed_witness :
    (∃ pre, (AisleFilter.mk "" "").toSqlStmt = pre ++ inventoryOrder) ∧
    (AisleFilter.mk "" "").toSqlStmt = inventorySelect ++ " " ++ inventoryOrder :=
  ⟨(c7_order_clause_fixed (AisleFilter.mk "" "")).1,
   (c7_order_clause_fixed (AisleFilter.mk "" "")).2 rfl rfl⟩

theorem jsonUnmarshal_error_old (old b e : String)
    (hb : (jsonUnmarshalGoString old b).2 = some e) :
    jsonUnmarshalGoString old b = (old, some e) := by
  have halt : (jsonUnmarshalGoString old b).1 = old ∨ (jsonUnmarshalGoString old b).2 = none := by
    unfold jsonUnmarshalGoString
    split
    · exact Or.inl rfl
    · split
      · split
        · exact Or.inr rfl
        · exact Or.inl rfl
      · exact Or.inl rfl
  rcases halt with h1 | h2
  · calc jsonUnmarshalGoString old b
        = ((jsonUnmarshalGoString old b).1, (jsonUnmarshalGoString old b).2) := rfl
      _ = (old, some e) := by rw [h1, hb]
  · rw [h2] at hb
    exact absurd hb (by simp)

/-- Claim C8: the NullString encode/decode round trip is lossy on absence —
an absent field marshals to the JSON empty string (never a null token),
the JSON empty string unmarshals to a valid (present) empty-string value,
so marshalling an absent field and unmarshalling the result yields a
present value; and on a decode failure the error is returned and the field
is left not valid with its value unchanged. -/
theorem c8_nullstring_lossy_roundtrip (ns ns2 : NullString) (s b e : String)
    (hb : (jsonUnmarshalGoString ns2.string b).2 = some e) :
    NullString.MarshalJSON { string := s, Valid := false } = "\x22\x22" ∧
    NullString.UnmarshalJSON ns "\x22\x22" = ({ string := "", Valid := true }, none) ∧
    NullString.UnmarshalJSON ns (NullString.MarshalJSON { string := s, Valid := false }) =
      ({ string := "", Valid := true }, none) ∧
    NullString.UnmarshalJSON ns2 b = ({ string := ns2.string, Valid := false }, some e) := by
  have hm : NullString.MarshalJSON { string := s, Valid := false } = "\x22\x22" := rfl
  have hu : NullString.UnmarshalJSON ns "\x22\x22" = ({ string := "", Valid := true }, none) := rfl
  refine ⟨hm, hu, by rw [hm]; exact hu, ?_⟩
  have h4 := jsonUnmarshal_error_old ns2.string b e hb
  simp only [NullString.UnmarshalJSON, h4]
  rfl

/-- Claim C8 witness: the concrete round trip with old value `w`, marshal
input `abc`, and the malformed decode input `123`. -/
theorem c8_nullstring_lossy_roundtrip_witness :
    NullString.MarshalJSON { string := "abc", Valid := false } = "\x22\x22" ∧
    NullString.UnmarshalJSON { string := "w", Valid := true } "\x22\x22" =
      ({ string := "", Valid := true }, none) ∧
    NullString.UnmarshalJSON { string := "w", Valid := true }
        (NullString.MarshalJSON { string := "abc", Valid := false }) =
      ({ string := "", Valid := true }, none) ∧
    NullString.UnmarshalJSON { string := "x", Valid := true } "123" =
      ({ string := "x", Valid := false },
        some "json: cannot unmarshal value into Go value of type string") :=
  c8_nullstring_lossy_roundtrip { string := "w", Valid := true } { string := "x", Valid := true }
    "abc" "123" "json: cannot unmarshal value into Go value of type string" (by decide)

theorem discEq_not_in_aisle (af : AisleFilter) (v : String) :
    discEqClause v ∉ af.aisleClauses := by
  unfold AisleFilter.aisleClauses
  split
  · simpa using (aisleEq_ne_discEq af.Aisle v).symm
  · simp

theorem discEqAll_not_in_disc (af : AisleFilter) : discEqClause "all" ∉ af.discClauses := by
  unfold AisleFilter.discClauses
  split
  · simpa using (discNe_ne_discEq "all").symm
  · split
    · rename_i h1 h2
      simp only [List.mem_singleton]
      intro he
      exact h1 (discEq_inj he.symm)
    · simp

theorem discEqAll_not_in_where (af : AisleFilter) :
    discEqClause "all" ∉ af.whereClauses := by
  rw [AisleFilter.whereClauses]
  intro hm
  rcases List.mem_append.mp hm with h | h
  · exact discEq_not_in_aisle af "all" h
  · exact discEqAll_not_in_disc af h

/-- Claim C9 counterexample: the claim's consequent fails — the decoded
request path `/discrepancies/all' and 'a'='a` reaches the handler with a
trailing segment that is neither empty nor the literal `all`, so the
equality branch interpolates it into the statement text unescaped
(aisles.go line 125) and the compiled where text is exactly the equality
`discrepancy ='all'` conjoined with the tautology `'a'='a'`: this request
retrieves exactly the records whose discrepancy note is the literal
`all`. -/
theorem c9_counterexample :
    discrepancyFilterOf "/discrepancies/all\x27 and \x27a\x27=\x27a" =
      { Aisle := "", Discrepancy := "all\x27 and \x27a\x27=\x27a" } ∧
    (discrepancyFilterOf "/discrepancies/all\x27 and \x27a\x27=\x27a").toSqlStmt =
      inventorySelect ++ " where " ++ (discEqClause "all" ++ " and \x27a\x27=\x27a\x27")
        ++ " " ++ inventoryOrder := by
  constructor
  · decide
  · decide

/-- Claim C9 as amended: the `all` branch is tested before the equality
branch, so a filter whose discrepancy field is the literal `all` compiles
to the not-equal-to-empty clause, and the compiled predicate list never
holds the exact equality on `all` as an element, for any filter and any
discrepancies-route path; but `all` is not reserved at the public
interface — filter values are interpolated into the statement text
unescaped, so the route segment `all' and 'a'='a` compiles to a statement
whose where text is the exact equality on `all` conjoined with a
tautology, retrieving exactly the discrepancy `all` records. -/
theorem c9_all_amended (af : AisleFilter) (path : String) (h : af.Discrepancy = "all") :
    af.discClauses = [discNeEmptyClause] ∧
    decide (discEqClause "all" ∈ af.whereClauses) = false ∧
    decide (discEqClause "all" ∈ (discrepancyFilterOf path).whereClauses) = false ∧
    (discrepancyFilterOf "/discrepancies/all\x27 and \x27a\x27=\x27a").toSqlStmt =
      inventorySelect ++ " where " ++ (discEqClause "all" ++ " and \x27a\x27=\x27a\x27")
        ++ " " ++ inventoryOrder :=
  ⟨by simp [AisleFilter.discClauses, h],
   decide_eq_false (discEqAll_not_in_where af),
   decide_eq_false (discEqAll_not_in_where _),
   by decide⟩

/-- Claim C9 witness: the amended statement at the discrepancy `all` filter
and the route path `/discrepancies/all`. -/
theorem c9_all_amended_witness :
    (AisleFilter.mk "" "all").discClauses = [discNeEmptyClause] ∧
    decide (discEqClause "all" ∈ (AisleFilter.mk "" "all").whereClauses) = false ∧
    decide (discEqClause "all" ∈ (discrepancyFilterOf "/discrepancies/all").whereClauses) = false ∧
    (discrepancyFilterOf "/discrepancies/all\x27 and \x27a\x27=\x27a").toSqlStmt =
      inventorySelect ++ " where " ++ (discEqClause "all" ++ " and \x27a\x27=\x27a\x27")
        ++ " " ++ inventoryOrder :=
  c9_all_amended (AisleFilter.mk "" "all") "/discrepancies/all" rfl
